import Mathlib

/-!
# Verification of `src/generateTypings.py`

The script iterates `i = 1 .. overloads` and, for each `i`, prints one
TypeScript overload signature for `composeMessageHandlers`, line by line.
We embed the script shallowly: each `print` becomes one `String` in a
`List String`, produced in exactly the order the script prints them.

Python's f-string interpolation of an integer renders it in decimal; we
model that with `natStr`, a fuel-based decimal renderer that the kernel
can evaluate, and prove it injective so that distinct type-variable
indices yield distinct names.
-/

namespace GenerateTypings

/-! ## Decimal rendering of numbers -/

/-- Decimal digit character: `digitChar d` is the character for digit `d`. -/
def digitChar (d : Nat) : Char := Char.ofNat (48 + d)

/-- Little-endian decimal digits of `n`, with explicit fuel (structural
recursion so the kernel can reduce it). -/
def digitsAux : Nat → Nat → List Nat
  | 0, _ => []
  | fuel + 1, n => if n = 0 then [] else n % 10 :: digitsAux fuel (n / 10)

/-- Little-endian decimal digits of `n`. -/
def natDigits (n : Nat) : List Nat := digitsAux n n

/-- Decimal rendering of a natural number, as Python's `f'{n}'` does. -/
def natStr (n : Nat) : String :=
  if n = 0 then "0" else ((natDigits n).reverse.map digitChar).asString

/-- Evaluator of a little-endian digit list, inverse to `digitsAux`. -/
def undigits : List Nat → Nat
  | [] => 0
  | d :: ds => d + 10 * undigits ds

/-! ## The string builders of the script

`stateVar j` and `errorVar j` are the type-variable names `NewState{j}`
and `Errors{j}`.  `strJoin` is Python's `sep.join(...)`. -/

def stateVar (j : Nat) : String := "NewState" ++ natStr j

def errorVar (j : Nat) : String := "Errors" ++ natStr j

def strJoin (sep : String) : List String → String
  | [] => ""
  | [a] => a
  | a :: b :: rest => a ++ sep ++ strJoin sep (b :: rest)

/-- `' & '.join(f'NewState{k}' for k in range(1, n + 1))`. -/
def joinedStates (n : Nat) : String := strJoin " & " ((List.range' 1 n).map stateVar)

/-- `' | '.join(f'Errors{k}' for k in range(1, n + 1))`. -/
def joinedErrors (n : Nat) : String := strJoin " | " ((List.range' 1 n).map errorVar)

/-! ## The lines printed for one overload signature (arity `i`)

Each definition below is one contiguous run of `print` calls of the
script, in source order. -/

/-- Lines 10-14 of the script: the `export function` header, the fixed
`ExistingState` parameter, one `NewState{j}, Errors{j},` line for each
`j in range(1, i + 2)`, and the closing `>(`. -/
def headerLines (i : Nat) : List String :=
  "export function composeMessageHandlers<" ::
  "    ExistingState," ::
  (List.range' 1 (i + 1)).map (fun j => "    " ++ stateVar j ++ ", " ++ errorVar j ++ ",") ++
  [">("]

/-- Line 16 of the script: the fixed first element of the handlers list. -/
def initialClause : String := "        MessageHandler<ExistingState, NewState1, Errors1>,"

/-- Line 20 of the script: the handler clause printed in the
`for j in range(1, i + 1)` loop. -/
def clauseLine (j : Nat) : String :=
  "        MessageHandler<ExistingState & " ++ joinedStates j ++ ", " ++ stateVar (j + 1) ++
    ", " ++ joinedErrors (j + 1) ++ ">,"

/-- The handlers list: the fixed initial clause followed by the loop
clauses for `j in range(1, i + 1)`. -/
def handlersList (i : Nat) : List String :=
  initialClause :: (List.range' 1 i).map clauseLine

/-- Lines 15-21 of the script: `handlers: [`, the clause list, `],`. -/
def handlersSection (i : Nat) : List String :=
  "    handlers: [" :: handlersList i ++ ["    ],"]

/-- Lines 22-25 of the script: the `composeCleanupErrors` parameter.  The
script computes `joined_errors` once over `range(1, i + 2)` and uses it on
both sides of the arrow. -/
def cleanupSection (i : Nat) : List String :=
  ["    composeCleanupErrors: (",
   "        errors: ReadonlyArray<Readonly<" ++ joinedErrors (i + 1) ++ ">>",
   "    ) => Awaitable<" ++ joinedErrors (i + 1) ++ ">"]

/-- Lines 26-31 of the script: the return type. -/
def returnSection (i : Nat) : List String :=
  ["): MessageHandler<",
   "    ExistingState,",
   "    " ++ joinedStates (i + 1) ++ ",",
   "    " ++ joinedErrors (i + 1),
   ">"]

/-- All lines printed for one iteration `i` of the outer loop. -/
def signatureLines (i : Nat) : List String :=
  headerLines i ++ handlersSection i ++ cleanupSection i ++ returnSection i

/-- The blocks printed by `main` for a given `--overloads` value: one
block per `i in range(1, overloads + 1)`.  `overloads` is an `int` in
Python, hence `Int` here; a non-positive value makes the range empty. -/
def mainBlocks (overloads : Int) : List (List String) :=
  (List.range' 1 overloads.toNat).map signatureLines

/-- Every line printed by `main`, in order. -/
def mainLines (overloads : Int) : List String :=
  (mainBlocks overloads).flatten

/-! ## Spec-side renderings

These definitions follow the spec's wording (the clause / return-type /
cleanup-parameter shapes it describes), to be compared with the strings
the script actually builds. -/

/-- The spec's cumulative error union `Errors1 | ... | Errors{n}`. -/
def specErrorUnion (n : Nat) : String :=
  strJoin " | " ((List.range' 1 n).map errorVar)

/-- The spec's state intersection `NewState1 & ... & NewState{n}` (the
conjunction of all contributed state variables in introduction order). -/
def specStateIntersection (n : Nat) : String :=
  strJoin " & " ((List.range' 1 n).map stateVar)

/-- The spec's loop clause for position `j`:
`MessageHandler<ExistingState & NewState1 & ... & NewState{j}, NewState{j+1}, Errors1 | ... | Errors{j+1}>`.
The input state is the `&`-conjunction of `ExistingState` with all states
contributed through position `j`. -/
def specLoopClause (j : Nat) : String :=
  "MessageHandler<" ++
    strJoin " & " ("ExistingState" :: (List.range' 1 j).map stateVar) ++ ", " ++
    stateVar (j + 1) ++ ", " ++ specErrorUnion (j + 1) ++ ">"

/-! ## Type variables declared and referenced (for claim C3)

`declaredVars i` mirrors the generic-parameter list the script prints:
`ExistingState` first, then `NewState{j}, Errors{j}` for
`j in range(1, i + 2)`.  The `referencedVars` parts list, construct by
construct, the variable names out of which the handler clauses, the
`composeCleanupErrors` parameter and the return type are built (each
rendered line is the concatenation of fixed literals and exactly these
names, in this order). -/

def declaredVars (i : Nat) : List String :=
  "ExistingState" :: (List.range' 1 (i + 1)).flatMap (fun j => [stateVar j, errorVar j])

/-- Variables of the fixed initial clause `MessageHandler<ExistingState, NewState1, Errors1>`. -/
def initialClauseVars : List String := ["ExistingState", stateVar 1, errorVar 1]

/-- Variables of the loop clause for position `j` (see `clauseLine`). -/
def loopClauseVars (j : Nat) : List String :=
  "ExistingState" ::
    ((List.range' 1 j).map stateVar ++ [stateVar (j + 1)] ++ (List.range' 1 (j + 1)).map errorVar)

/-- Variables of the `composeCleanupErrors` parameter (see `cleanupSection`):
the error union appears on both sides of the arrow. -/
def cleanupVars (i : Nat) : List String :=
  (List.range' 1 (i + 1)).map errorVar ++ (List.range' 1 (i + 1)).map errorVar

/-- Variables of the return type (see `returnSection`). -/
def returnVars (i : Nat) : List String :=
  "ExistingState" ::
    ((List.range' 1 (i + 1)).map stateVar ++ (List.range' 1 (i + 1)).map errorVar)

/-- Every variable referenced in the handler clauses, the
`composeCleanupErrors` parameter and the return type of the signature for
arity `i`. -/
def referencedVars (i : Nat) : List String :=
  initialClauseVars ++ (List.range' 1 i).flatMap loopClauseVars ++ cleanupVars i ++ returnVars i

/-! ## The StateOnly emission mode (for claim C8)

The repository's `src/` contains only the intersection-mode generator
(`composeMessageHandlers`); no StateOnly generator is present.  The
definitions below are therefore modelled from the spec. -/

/-- A generated signature in StateOnly mode: its generic-parameter list,
its handler clauses, and its return type. -/
structure StateOnlySignature where
  genericParams : List String
  handlers : List String
  returnType : String
deriving DecidableEq

/-- `State{j}`, the plain state variable name of the StateOnly mode. -/
def plainStateVar (j : Nat) : String := "State" ++ natStr j

/-- Modelled from the spec: the StateOnly signature for arity `i`
(missing from `src/`).  Generic parameters are `State1, ..., State{i+1}`;
the clause for position `j` is `Handler<State{j}, State{j+1}>` with no
error parameter; the return type is `Handler<State1, State{i+1}>`. -/
def stateOnlySignature (i : Nat) : StateOnlySignature where
  genericParams := (List.range' 1 (i + 1)).map plainStateVar
  handlers :=
    (List.range' 1 i).map (fun j => "Handler<" ++ plainStateVar j ++ ", " ++ plainStateVar (j + 1) ++ ">")
  returnType := "Handler<" ++ plainStateVar 1 ++ ", " ++ plainStateVar (i + 1) ++ ">"

/-- Modelled from the spec: the StateOnly driver (missing from `src/`)
iterates arities `2 .. maxArity` inclusive (this mode requires at least
two handlers to be a non-degenerate chain), one signature per arity, in
ascending order. -/
def stateOnlyDriver (maxArity : Int) : List StateOnlySignature :=
  (List.range' 2 (maxArity.toNat - 1)).map stateOnlySignature

/-! ## Correctness of the decimal renderer -/

theorem undigits_digitsAux : ∀ (fuel n : Nat), n ≤ fuel → undigits (digitsAux fuel n) = n
  | 0, n, h => by
    interval_cases n
    simp [digitsAux, undigits]
  | fuel + 1, n, h => by
    by_cases hn : n = 0
    · simp [digitsAux, hn, undigits]
    · have hdiv : n / 10 ≤ fuel := by
        have : n / 10 < n := Nat.div_lt_self (Nat.pos_of_ne_zero hn) (by omega)
        omega
      simp only [digitsAux, hn, if_false, undigits]
      rw [undigits_digitsAux fuel (n / 10) hdiv]
      omega

theorem natDigits_injective : Function.Injective natDigits := by
  intro m n h
  have hm := undigits_digitsAux m m le_rfl
  have hn := undigits_digitsAux n n le_rfl
  rw [natDigits] at h
  rw [natDigits] at h
  rw [h] at hm
  omega

theorem digitsAux_lt : ∀ (fuel n : Nat), ∀ d ∈ digitsAux fuel n, d < 10
  | 0, _ => by simp [digitsAux]
  | fuel + 1, n => by
    by_cases hn : n = 0
    · simp [digitsAux, hn]
    · simp only [digitsAux, hn, if_false, List.mem_cons]
      intro d hd
      rcases hd with h | h
      · omega
      · exact digitsAux_lt fuel (n / 10) d h

theorem digitChar_left_inverse : ∀ d : Nat, d < 10 → (digitChar d).toNat - 48 = d := by
  decide

theorem map_digitChar_injective {l l' : List Nat}
    (hl : ∀ d ∈ l, d < 10) (hl' : ∀ d ∈ l', d < 10)
    (h : l.map digitChar = l'.map digitChar) : l = l' := by
  induction l generalizing l' with
  | nil => cases l' <;> simp_all
  | cons a t ih =>
    cases l' with
    | nil => simp_all
    | cons b t' =>
      simp only [List.map_cons, List.cons.injEq] at h
      have ha : a < 10 := hl a (List.mem_cons_self a t)
      have hb : b < 10 := hl' b (List.mem_cons_self b t')
      have hab : a = b := by
        have h48 := congrArg (fun c : Char => c.toNat - 48) h.1
        simp only at h48
        rwa [digitChar_left_inverse a ha, digitChar_left_inverse b hb] at h48
      have ht : t = t' :=
        ih (fun d hd => hl d (List.mem_cons_of_mem a hd))
          (fun d hd => hl' d (List.mem_cons_of_mem b hd)) h.2
      rw [hab, ht]

theorem natStr_inj {m n : Nat} (hm : 1 ≤ m) (hn : 1 ≤ n) (h : natStr m = natStr n) : m = n := by
  rw [natStr, natStr, if_neg (by omega), if_neg (by omega), List.asString_inj] at h
  have h' := congrArg List.reverse h
  rw [← List.map_reverse, ← List.map_reverse, List.reverse_reverse, List.reverse_reverse] at h'
  exact natDigits_injective
    (map_digitChar_injective (fun d hd => digitsAux_lt m m d hd)
      (fun d hd => digitsAux_lt n n d hd) h')

/-! ## General lemmas about the builders -/

theorem strJoin_cons (sep a : String) {l : List String} (h : l ≠ []) :
    strJoin sep (a :: l) = a ++ sep ++ strJoin sep l := by
  cases l with
  | nil => exact absurd rfl h
  | cons b t => rfl

theorem map_range'_one_ne_nil {α : Type} (f : Nat → α) {n : Nat} (h : 1 ≤ n) :
    (List.range' 1 n).map f ≠ [] := by
  simp only [ne_eq, List.map_eq_nil_iff, List.range'_eq_nil]
  omega

theorem map_range'_one_getElem? {α : Type} (f : Nat → α) {n k : Nat} (h : k < n) :
    ((List.range' 1 n).map f)[k]? = some (f (1 + k)) := by
  rw [List.getElem?_map, List.getElem?_range' 1 1 h]
  simp

theorem specErrorUnion_eq (n : Nat) : specErrorUnion n = joinedErrors n := rfl

theorem specStateIntersection_eq (n : Nat) : specStateIntersection n = joinedStates n := rfl

/-- The loop clause the script builds coincides with the clause the spec
describes, for every position `j ≥ 1`. -/
theorem clauseLine_eq_spec (j : Nat) (hj : 1 ≤ j) :
    clauseLine j = "        " ++ specLoopClause j ++ "," := by
  rw [clauseLine, specLoopClause,
    strJoin_cons " & " "ExistingState" (map_range'_one_ne_nil stateVar hj), specErrorUnion_eq]
  show "        MessageHandler<ExistingState & " ++ joinedStates j ++ ", " ++ stateVar (j + 1) ++
      ", " ++ joinedErrors (j + 1) ++ ">," =
    "        " ++ ("MessageHandler<" ++ ("ExistingState" ++ " & " ++ joinedStates j) ++ ", " ++
      stateVar (j + 1) ++ ", " ++ joinedErrors (j + 1) ++ ">") ++ ","
  have hA : ("        MessageHandler<ExistingState & ").data =
      ("        ").data ++ ("MessageHandler<").data ++ ("ExistingState").data ++ (" & ").data := rfl
  have hB : (">,").data = (">").data ++ (",").data := rfl
  apply String.ext
  simp [String.data_append, hA, hB, List.append_assoc]

/-! ## Distinctness of the type-variable names -/

theorem stateVar_ne_errorVar (j k : Nat) : stateVar j ≠ errorVar k := by
  intro h
  have hd := congrArg String.data h
  rw [stateVar, errorVar, String.data_append, String.data_append] at hd
  have hN : ("NewState").data = 'N' :: "ewState".data := rfl
  have hE : ("Errors").data = 'E' :: "rrors".data := rfl
  rw [hN, hE] at hd
  simp only [List.cons_append, List.cons.injEq] at hd
  exact absurd hd.1 (by decide)

theorem existing_ne_stateVar (j : Nat) : "ExistingState" ≠ stateVar j := by
  intro h
  have hd := congrArg String.data h
  rw [stateVar, String.data_append] at hd
  have hX : ("ExistingState").data = 'E' :: "xistingState".data := rfl
  have hN : ("NewState").data = 'N' :: "ewState".data := rfl
  rw [hX, hN] at hd
  simp only [List.cons_append, List.cons.injEq] at hd
  exact absurd hd.1 (by decide)

theorem existing_ne_errorVar (k : Nat) : "ExistingState" ≠ errorVar k := by
  intro h
  have hd := congrArg String.data h
  rw [errorVar, String.data_append] at hd
  have hX : ("ExistingState").data = 'E' :: 'x' :: "istingState".data := rfl
  have hE : ("Errors").data = 'E' :: 'r' :: "rors".data := rfl
  rw [hX, hE] at hd
  simp only [List.cons_append, List.cons.injEq] at hd
  exact absurd hd.2.1 (by decide)

theorem stateVar_inj {j k : Nat} (hj : 1 ≤ j) (hk : 1 ≤ k) (h : stateVar j = stateVar k) :
    j = k := by
  rw [stateVar, stateVar] at h
  have hd := congrArg String.data h
  rw [String.data_append, String.data_append] at hd
  exact natStr_inj hj hk (String.ext (List.append_cancel_left hd))

theorem errorVar_inj {j k : Nat} (hj : 1 ≤ j) (hk : 1 ≤ k) (h : errorVar j = errorVar k) :
    j = k := by
  rw [errorVar, errorVar] at h
  have hd := congrArg String.data h
  rw [String.data_append, String.data_append] at hd
  exact natStr_inj hj hk (String.ext (List.append_cancel_left hd))

/-! ## Declared versus referenced variables -/

theorem mem_declaredVars {i : Nat} {x : String} :
    x ∈ declaredVars i ↔
      x = "ExistingState" ∨ ∃ j, 1 ≤ j ∧ j ≤ i + 1 ∧ (x = stateVar j ∨ x = errorVar j) := by
  simp only [declaredVars, List.mem_cons, List.mem_flatMap, List.mem_range'_1,
    List.mem_singleton, List.not_mem_nil, or_false]
  constructor
  · rintro (rfl | ⟨j, ⟨hj1, hj2⟩, hx⟩)
    · exact Or.inl rfl
    · exact Or.inr ⟨j, hj1, by omega, hx⟩
  · rintro (rfl | ⟨j, hj1, hj2, hx⟩)
    · exact Or.inl rfl
    · exact Or.inr ⟨j, ⟨hj1, by omega⟩, hx⟩

theorem mem_referencedVars {i : Nat} {x : String} :
    x ∈ referencedVars i ↔
      x = "ExistingState" ∨ ∃ j, 1 ≤ j ∧ j ≤ i + 1 ∧ (x = stateVar j ∨ x = errorVar j) := by
  constructor
  · intro hx
    simp only [referencedVars, List.mem_append] at hx
    rcases hx with ((hx | hx) | hx) | hx
    · simp only [initialClauseVars, List.mem_cons, List.mem_singleton, List.not_mem_nil,
        or_false] at hx
      rcases hx with rfl | rfl | rfl
      · exact Or.inl rfl
      · exact Or.inr ⟨1, le_rfl, by omega, Or.inl rfl⟩
      · exact Or.inr ⟨1, le_rfl, by omega, Or.inr rfl⟩
    · rw [List.mem_flatMap] at hx
      obtain ⟨j, hj, hxj⟩ := hx
      have hjb := List.mem_range'_1.1 hj
      simp only [loopClauseVars, List.mem_cons, List.mem_append, List.mem_map,
        List.mem_range'_1, List.mem_singleton, List.not_mem_nil, or_false] at hxj
      rcases hxj with rfl | (⟨k, ⟨hk1, hk2⟩, rfl⟩ | rfl) | ⟨k, ⟨hk1, hk2⟩, rfl⟩
      · exact Or.inl rfl
      · exact Or.inr ⟨k, hk1, by omega, Or.inl rfl⟩
      · exact Or.inr ⟨j + 1, by omega, by omega, Or.inl rfl⟩
      · exact Or.inr ⟨k, hk1, by omega, Or.inr rfl⟩
    · simp only [cleanupVars, List.mem_append, List.mem_map, List.mem_range'_1] at hx
      rcases hx with ⟨k, ⟨hk1, hk2⟩, rfl⟩ | ⟨k, ⟨hk1, hk2⟩, rfl⟩ <;>
        exact Or.inr ⟨k, hk1, by omega, Or.inr rfl⟩
    · simp only [returnVars, List.mem_cons, List.mem_append, List.mem_map,
        List.mem_range'_1] at hx
      rcases hx with rfl | ⟨k, ⟨hk1, hk2⟩, rfl⟩ | ⟨k, ⟨hk1, hk2⟩, rfl⟩
      · exact Or.inl rfl
      · exact Or.inr ⟨k, hk1, by omega, Or.inl rfl⟩
      · exact Or.inr ⟨k, hk1, by omega, Or.inr rfl⟩
  · intro hx
    have hret : x ∈ returnVars i := by
      simp only [returnVars, List.mem_cons, List.mem_append, List.mem_map, List.mem_range'_1]
      rcases hx with rfl | ⟨j, hj1, hj2, rfl | rfl⟩
      · exact Or.inl rfl
      · exact Or.inr (Or.inl ⟨j, ⟨hj1, by omega⟩, rfl⟩)
      · exact Or.inr (Or.inr ⟨j, ⟨hj1, by omega⟩, rfl⟩)
    simp only [referencedVars, List.mem_append]
    exact Or.inr hret

theorem nodup_pairs (n : Nat) :
    ((List.range' 1 n).flatMap (fun j => [stateVar j, errorVar j])).Nodup := by
  rw [List.nodup_flatMap]
  refine ⟨fun j hj => ?_, ?_⟩
  · simp [stateVar_ne_errorVar j j]
  · have hp := List.pairwise_lt_range' 1 n 1 (by simp)
    refine List.Pairwise.imp_of_mem (fun {a b} ha hb hab => ?_) hp
    have ha1 : 1 ≤ a := (List.mem_range'_1.1 ha).1
    have hb1 : 1 ≤ b := (List.mem_range'_1.1 hb).1
    intro x hxa hxb
    simp only [List.mem_cons, List.mem_singleton, List.not_mem_nil, or_false] at hxa hxb
    rcases hxa with rfl | rfl <;> rcases hxb with h | h
    · exact absurd (stateVar_inj ha1 hb1 h) (by omega)
    · exact absurd h (stateVar_ne_errorVar a b)
    · exact absurd h.symm (stateVar_ne_errorVar b a)
    · exact absurd (errorVar_inj ha1 hb1 h) (by omega)

theorem nodup_declaredVars (i : Nat) : (declaredVars i).Nodup := by
  rw [declaredVars, List.nodup_cons]
  refine ⟨?_, nodup_pairs (i + 1)⟩
  intro hmem
  rw [List.mem_flatMap] at hmem
  obtain ⟨j, _, hj⟩ := hmem
  simp only [List.mem_cons, List.mem_singleton, List.not_mem_nil, or_false] at hj
  rcases hj with h | h
  · exact existing_ne_stateVar j h
  · exact existing_ne_errorVar j h

/-! ## The claims -/

/-- Claim C1: for every arity `i ≥ 1` and position `j` in `1..i`, the
signature emitted for arity `i` contains the handlers list, whose first
element is the fixed initial clause
`MessageHandler<ExistingState, NewState1, Errors1>` and whose element at
position `j` is
`MessageHandler<ExistingState & NewState1 & ... & NewState{j}, NewState{j+1}, Errors1 | ... | Errors{j+1}>`
(the error union is offset by one relative to the state index). -/
theorem claim_C1 (i j : Nat) (_hi : 1 ≤ i) (hj : 1 ≤ j) (hji : j ≤ i) :
    (∃ p q, signatureLines i = p ++ handlersList i ++ q) ∧
    (handlersList i)[0]? = some "        MessageHandler<ExistingState, NewState1, Errors1>," ∧
    (handlersList i)[j]? = some ("        " ++ specLoopClause j ++ ",") := by
  refine ⟨⟨headerLines i ++ ["    handlers: ["],
    ["    ],"] ++ cleanupSection i ++ returnSection i, ?_⟩, ?_⟩
  · simp [signatureLines, handlersSection, List.append_assoc]
  refine ⟨by rw [handlersList, List.getElem?_cons_zero, initialClause], ?_⟩
  obtain ⟨j', rfl⟩ : ∃ j', j = j' + 1 := ⟨j - 1, by omega⟩
  rw [handlersList, List.getElem?_cons_succ, map_range'_one_getElem? clauseLine (by omega),
    Nat.add_comm 1 j', clauseLine_eq_spec (j' + 1) (by omega)]

/-- Witness for C1 at `i = 2`, `j = 2`. -/
theorem claim_C1_witness :
    (1 ≤ 2 ∧ 1 ≤ 2 ∧ 2 ≤ 2) ∧
    ((∃ p q, signatureLines 2 = p ++ handlersList 2 ++ q) ∧
     (handlersList 2)[0]? = some "        MessageHandler<ExistingState, NewState1, Errors1>," ∧
     (handlersList 2)[2]? = some ("        " ++ specLoopClause 2 ++ ",")) :=
  ⟨⟨by decide, by decide, by decide⟩, claim_C1 2 2 (by decide) (by decide) (by decide)⟩

/-- Claim C2: for every arity `i ≥ 1`, the return type of the emitted
signature is
`MessageHandler<ExistingState, NewState1 & ... & NewState{i+1}, Errors1 | ... | Errors{i+1}>`:
initial state `ExistingState`, final state the intersection of all
contributed state variables in introduction order, and error parameter
the full cumulative union of all `i+1` error variables. -/
theorem claim_C2 (i : Nat) (_hi : 1 ≤ i) :
    (∃ p, signatureLines i = p ++ returnSection i) ∧
    returnSection i =
      ["): MessageHandler<",
       "    ExistingState,",
       "    " ++ specStateIntersection (i + 1) ++ ",",
       "    " ++ specErrorUnion (i + 1),
       ">"] := by
  refine ⟨⟨headerLines i ++ handlersSection i ++ cleanupSection i, ?_⟩, rfl⟩
  simp [signatureLines, List.append_assoc]

/-- Witness for C2 at `i = 1`. -/
theorem claim_C2_witness :
    1 ≤ 1 ∧
    ((∃ p, signatureLines 1 = p ++ returnSection 1) ∧
     returnSection 1 =
       ["): MessageHandler<",
        "    ExistingState,",
        "    " ++ specStateIntersection 2 ++ ",",
        "    " ++ specErrorUnion 2,
        ">"]) :=
  ⟨by decide, claim_C2 1 (by decide)⟩

/-- Claim C3: for every arity `i ≥ 1`, the set of type variables declared
in the generic parameter list equals exactly the set of type variables
referenced in the handler clauses, the `composeCleanupErrors` parameter
and the return type, and no variable is declared twice. -/
theorem claim_C3 (i : Nat) (_hi : 1 ≤ i) :
    (∀ x, x ∈ declaredVars i ↔ x ∈ referencedVars i) ∧ (declaredVars i).Nodup :=
  ⟨fun _ => mem_declaredVars.trans mem_referencedVars.symm, nodup_declaredVars i⟩

/-- Witness for C3 at `i = 2`. -/
theorem claim_C3_witness :
    1 ≤ 2 ∧
    ((∀ x, x ∈ declaredVars 2 ↔ x ∈ referencedVars 2) ∧ (declaredVars 2).Nodup) :=
  ⟨by decide, claim_C3 2 (by decide)⟩

/-- Claim C4: for every configured `maxArity ≥ 1`, the driver emits
exactly one signature per arity `i = 1..maxArity` (exactly `maxArity`
blocks), in ascending arity order (the `k`-th block is the signature for
arity `k + 1`), and the signature for arity `k + 1` has exactly
`(k + 1) + 1` handler clauses. -/
theorem claim_C4 (m : Int) (_hm : 1 ≤ m) :
    (mainBlocks m).length = m.toNat ∧
    ∀ k, k < m.toNat →
      (mainBlocks m)[k]? = some (signatureLines (k + 1)) ∧
      (handlersList (k + 1)).length = (k + 1) + 1 := by
  refine ⟨by simp [mainBlocks], fun k hk => ⟨?_, ?_⟩⟩
  · rw [mainBlocks, map_range'_one_getElem? signatureLines hk, Nat.add_comm 1 k]
  · simp [handlersList]

/-- Witness for C4 at `maxArity = 2`. -/
theorem claim_C4_witness :
    (1 : Int) ≤ 2 ∧
    ((mainBlocks 2).length = (2 : Int).toNat ∧
     ∀ k, k < (2 : Int).toNat →
       (mainBlocks 2)[k]? = some (signatureLines (k + 1)) ∧
       (handlersList (k + 1)).length = (k + 1) + 1) :=
  ⟨by decide, claim_C4 2 (by decide)⟩

/-- Counterexample to claim C5 as stated: at the invalid configuration
value `0`, the generator does not fail fast with a message identifying
the invalid value and the valid range — it prints nothing at all (the
script has no validation branch and no failure path; its entire
observable output at `overloads = 0` is empty). -/
theorem claim_C5_counterexample : mainLines 0 = [] := rfl

/-- Claim C5 as amended: for every non-positive configuration value the
generator emits no signature blocks and no lines at all — it terminates
successfully with empty output, producing neither signature text nor any
error message. -/
theorem claim_C5 (m : Int) (hm : m ≤ 0) : mainBlocks m = [] ∧ mainLines m = [] := by
  have hb : mainBlocks m = [] := by
    rw [mainBlocks, Int.toNat_of_nonpos hm]
    rfl
  exact ⟨hb, by rw [mainLines, hb]; rfl⟩

/-- Witness for the amended C5 at `overloads = -3`. -/
theorem claim_C5_witness :
    (-3 : Int) ≤ 0 ∧ (mainBlocks (-3) = [] ∧ mainLines (-3) = []) :=
  ⟨by decide, claim_C5 (-3) (by decide)⟩

/-- Claim C6: for every arity `i ≥ 1`, the emitted signature contains the
`composeCleanupErrors` parameter, a function from
`ReadonlyArray<Readonly<Errors1 | ... | Errors{i+1}>>` to
`Awaitable<Errors1 | ... | Errors{i+1}>`, with the identical full
cumulative union expression on both sides. -/
theorem claim_C6 (i : Nat) (_hi : 1 ≤ i) :
    (∃ p q, signatureLines i = p ++ cleanupSection i ++ q) ∧
    cleanupSection i =
      ["    composeCleanupErrors: (",
       "        errors: ReadonlyArray<Readonly<" ++ specErrorUnion (i + 1) ++ ">>",
       "    ) => Awaitable<" ++ specErrorUnion (i + 1) ++ ">"] := by
  refine ⟨⟨headerLines i ++ handlersSection i, returnSection i, ?_⟩, rfl⟩
  simp [signatureLines, List.append_assoc]

/-- Witness for C6 at `i = 1`. -/
theorem claim_C6_witness :
    1 ≤ 1 ∧
    ((∃ p q, signatureLines 1 = p ++ cleanupSection 1 ++ q) ∧
     cleanupSection 1 =
       ["    composeCleanupErrors: (",
        "        errors: ReadonlyArray<Readonly<" ++ specErrorUnion 2 ++ ">>",
        "    ) => Awaitable<" ++ specErrorUnion 2 ++ ">"]) :=
  ⟨by decide, claim_C6 1 (by decide)⟩

/-- Counterexample to claim C7 as stated: at `maxArity = 2` the two
emitted signature blocks are not separated by a blank line — the output
is their direct concatenation, and no line of the output is blank. -/
theorem claim_C7_counterexample :
    mainLines 2 = signatureLines 1 ++ signatureLines 2 ∧ "" ∉ mainLines 2 :=
  ⟨rfl, by decide⟩

/-- Claim C7 as amended: for every configured `maxArity ≥ 2`, any two
consecutively emitted signature blocks are directly adjacent in the
output, with nothing (in particular no blank line) between them. -/
theorem claim_C7 (m : Int) (_hm : 2 ≤ m) (k : Nat) (hk : k + 2 ≤ m.toNat) :
    ∃ p s, mainLines m = p ++ (signatureLines (k + 1) ++ signatureLines (k + 2)) ++ s := by
  refine ⟨((List.range' 1 k).map signatureLines).flatten,
          ((List.range' (1 + k + 2) (m.toNat - k - 2)).map signatureLines).flatten, ?_⟩
  rw [mainLines, mainBlocks]
  have e3 : List.range' (1 + k) 2 = [k + 1, k + 2] := by
    rw [Nat.add_comm 1 k]
    rfl
  have e2 : List.range' (1 + k) (m.toNat - k) =
      List.range' (1 + k) 2 ++ List.range' (1 + k + 2) (m.toNat - k - 2) := by
    rw [List.range'_append_1]
    congr 1
    omega
  have e1 : List.range' 1 m.toNat = List.range' 1 k ++ List.range' (1 + k) (m.toNat - k) := by
    rw [List.range'_append_1 1 k (m.toNat - k)]
    congr 1
    omega
  rw [e1, e2, e3]
  simp [List.append_assoc]

/-- Witness for the amended C7 at `maxArity = 2`, consecutive pair `(1, 2)`. -/
theorem claim_C7_witness :
    ((2 : Int) ≤ 2 ∧ 0 + 2 ≤ (2 : Int).toNat) ∧
    (∃ p s, mainLines 2 = p ++ (signatureLines 1 ++ signatureLines 2) ++ s) :=
  ⟨⟨by decide, by decide⟩, claim_C7 2 (by decide) 0 (by decide)⟩

/-- Claim C8 (StateOnly mode, modelled from the spec, no such generator
being present under `src/`): with `maxArity = 2` the driver emits exactly
one signature, for `i = 2`, with generic parameters
`State1, State2, State3`, the two clauses `Handler<State1, State2>` and
`Handler<State2, State3>`, and return type `Handler<State1, State3>`. -/
theorem claim_C8 :
    stateOnlyDriver 2 =
      [{ genericParams := ["State1", "State2", "State3"],
         handlers := ["Handler<State1, State2>", "Handler<State2, State3>"],
         returnType := "Handler<State1, State3>" }] := by
  decide

/-- Claim C9: for every configured `overloads ≤ 0`, the generator
produces empty output and terminates successfully (the iteration range
`1..overloads` is empty; the embedding is a total function, so no error
is raised and no message is printed). -/
theorem claim_C9 (m : Int) (hm : m ≤ 0) : mainLines m = [] := by
  rw [mainLines, mainBlocks, Int.toNat_of_nonpos hm]
  rfl

/-- Witness for C9 at `overloads = -5`. -/
theorem claim_C9_witness : (-5 : Int) ≤ 0 ∧ mainLines (-5) = [] :=
  ⟨by decide, claim_C9 (-5) (by decide)⟩

/-- Claim C10: for every `n ≥ 1`, the output at `overloads = n` is a
prefix of the output at `overloads = n + 1`: raising the maximum arity
appends exactly the new signature block (whose text depends only on its
arity, not on the configured maximum) after the existing ones. -/
theorem claim_C10 (n : Int) (hn : 1 ≤ n) :
    (∃ t, mainLines n ++ t = mainLines (n + 1)) ∧
    mainBlocks (n + 1) = mainBlocks n ++ [signatureLines (n.toNat + 1)] := by
  have h1 : (n + 1).toNat = n.toNat + 1 := by omega
  have h2 : mainBlocks (n + 1) = mainBlocks n ++ [signatureLines (n.toNat + 1)] := by
    rw [mainBlocks, h1, List.range'_1_concat, List.map_append, Nat.add_comm 1 n.toNat]
    rfl
  refine ⟨⟨signatureLines (n.toNat + 1), ?_⟩, h2⟩
  rw [mainLines, mainLines, h2, List.flatten_append]
  simp

/-- Witness for C10 at `n = 1`. -/
theorem claim_C10_witness :
    (1 : Int) ≤ 1 ∧
    ((∃ t, mainLines 1 ++ t = mainLines 2) ∧
     mainBlocks 2 = mainBlocks 1 ++ [signatureLines ((1 : Int).toNat + 1)]) :=
  ⟨by decide, claim_C10 1 (by decide)⟩

end GenerateTypings
